import Mathlib

/-!
Shallow embedding of the AgroTrackLite workflow/planner core:
`src/workflow/handleIntent.ts` and `src/agent/planner.ts`.

Conventions of the embedding:
* JS `Map` objects become association lists with Map semantics
  (`mapSet` replaces the entry in place, `mapGet` finds the first match,
  `mapDelete` removes the entry).
* JS numbers carrying quantities/amounts become `Int`; epoch-millisecond
  timestamps and durations become `Nat`. `Date.now()` becomes an explicit
  `now : Nat` argument of each operation.
* Exceptions thrown by the external collaborators (the HCS ledger append
  `logToHCS` and the release action `simulateEscrowRelease`) are decided
  by oracles: lists of booleans consumed one per call, `true` meaning the
  call throws; an exhausted oracle means the call succeeds. `sendSms`
  never throws in the source (it catches its own file-system errors).
* Side effects (SMS sends, ledger appends, local error logs) are recorded
  in an event trace. The random task id produced by `uid()` is modelled
  by a fresh counter; the random listing reference is abstracted away.
-/

namespace AgroTrack

/-- JS `Map.get`: first entry with the given key. -/
def mapGet {α : Type} : List (String × α) → String → Option α
  | [], _ => none
  | (k0, v0) :: rest, k => if k0 = k then some v0 else mapGet rest k

/-- JS `Map.set`: replace the entry with the given key in place, else append. -/
def mapSet {α : Type} : List (String × α) → String → α → List (String × α)
  | [], k, v => [(k, v)]
  | (k0, v0) :: rest, k, v =>
    if k0 = k then (k, v) :: rest else (k0, v0) :: mapSet rest k v

/-- JS `Map.delete`: remove the entry with the given key. -/
def mapDelete {α : Type} : List (String × α) → String → List (String × α)
  | [], _ => []
  | (k0, v0) :: rest, k =>
    if k0 = k then mapDelete rest k else (k0, v0) :: mapDelete rest k

/-- JS `String.prototype.trim`: drop whitespace from both ends. Modelled
structurally over the character list so that concrete inputs evaluate
inside the kernel (Lean's own `String.trim` is defined by well-founded
recursion on byte positions and does not reduce there). -/
def jsTrim (s : String) : String :=
  String.mk (((s.data.dropWhile Char.isWhitespace).reverse.dropWhile
    Char.isWhitespace).reverse)

/-- Value stored in `pendingByOtp` (handleIntent.ts lines 8-11). -/
structure Pending where
  qty : Int
  unit : String
  grade : Option String
  farmerId : String
  buyerId : String
deriving DecidableEq, Repr

/-- `type TaskType = 'releaseEscrow'` (planner.ts line 6). -/
inductive TaskType
  | releaseEscrow
deriving DecidableEq, Repr

/-- `type TaskStatus` (planner.ts line 7). -/
inductive TaskStatus
  | pending
  | waiting_approval
  | running
  | failed
  | done
deriving DecidableEq, Repr

/-- Payload of a releaseEscrow task (planner.ts line 77). -/
structure Payload where
  otp : String
  amount : Int
  farmerId : String
  buyerId : String
deriving DecidableEq, Repr

/-- `type Task` (planner.ts lines 8-18). The random string id from `uid()`
is modelled as a `Nat` drawn from a fresh counter. -/
structure Task where
  id : Nat
  ttype : TaskType
  payload : Payload
  status : TaskStatus
  attempts : Nat
  maxAttempts : Nat
  nextRunAt : Nat
  backoffMs : Nat
  requiresApproval : Bool
deriving DecidableEq, Repr

/-- Process-wide environment configuration read by the two modules:
`FARMER_ACCOUNT_ID`, `BUYER_ACCOUNT_ID`, `REQUIRE_OPERATOR_APPROVAL`,
`AUTO_RELEASE_DELAY_MS`. The account ids are the raw env strings (empty
when missing); the code trims them at the point of use. -/
structure Config where
  farmerAccountId : String
  buyerAccountId : String
  requireOperatorApproval : Bool
  autoReleaseDelayMs : Nat
deriving DecidableEq, Repr

/-- The mutable module state: `pendingByOtp` (handleIntent.ts line 8),
`queue` (planner.ts line 25), and the fresh-id counter modelling `uid()`. -/
structure AppState where
  pendingByOtp : List (String × Pending)
  queue : List Task
  nextId : Nat
deriving DecidableEq, Repr

/-- The state at process start: both tables empty. -/
def initialState : AppState := { pendingByOtp := [], queue := [], nextId := 0 }

/-- The distinct SMS notifications sent by the source, one constructor per
string template of handleIntent.ts. -/
inductive SmsMsg
  | missingOtpOrQty
  | couldNotRecord
  | deliveryRecorded (qty : Int) (unit grade otp : String)
  | missingOtpConfirm
  | noPendingDelivery (otp : String)
  | escrowQueuedApproval (taskId : Nat)
  | escrowQueuedAuto (taskId : Nat)
  | helpMenu
  | listingReceived (raw : Option String)
  | didNotUnderstand
deriving DecidableEq, Repr

/-- Observable side effects: an SMS send, a successful HCS append, an HCS
append attempt that threw, a local console error log (the catch branch of
`safeHcsLog`), and the external escrow release action. -/
inductive Event
  | sms (recipient : String) (msg : SmsMsg)
  | hcs (label : String)
  | hcsThrow (label : String)
  | localLog (label : String)
  | escrowOk
  | escrowThrow
deriving DecidableEq, Repr

/-- Event trace plus the failure oracles for the two throwing collaborators. -/
structure Effects where
  events : List Event
  hcsOracle : List Bool
  escrowOracle : List Bool
deriving DecidableEq, Repr

/-- `logToHCS` (hcsLogger.ts): an external append that may throw. The next
oracle entry decides the outcome; an empty oracle means success. -/
def logToHCS (label : String) (fx : Effects) : Except Effects Effects :=
  match fx.hcsOracle with
  | [] => .ok { fx with events := fx.events ++ [.hcs label] }
  | b :: rest =>
    if b then
      .error { fx with events := fx.events ++ [.hcsThrow label], hcsOracle := rest }
    else
      .ok { fx with events := fx.events ++ [.hcs label], hcsOracle := rest }

/-- `safeHcsLog` (handleIntent.ts lines 41-47): wraps `logToHCS` in
try/catch; a failure is logged locally and never propagates. -/
def safeHcsLog (label : String) (fx : Effects) : Effects :=
  match logToHCS label fx with
  | .ok fx1 => fx1
  | .error fx1 => { fx1 with events := fx1.events ++ [.localLog label] }

/-- `sendSms` (send.ts): records the notification; never throws. -/
def sendSms (recipient : String) (msg : SmsMsg) (fx : Effects) : Effects :=
  { fx with events := fx.events ++ [.sms recipient msg] }

/-- `simulateEscrowRelease` (escrow.ts): external release action; the next
escrow-oracle entry decides whether it throws. -/
def simulateEscrowRelease (fx : Effects) : Except Effects Effects :=
  match fx.escrowOracle with
  | [] => .ok { fx with events := fx.events ++ [.escrowOk] }
  | b :: rest =>
    if b then
      .error { fx with events := fx.events ++ [.escrowThrow], escrowOracle := rest }
    else
      .ok { fx with events := fx.events ++ [.escrowOk], escrowOracle := rest }

/-- Arguments of `storePendingDelivery` (handleIntent.ts line 19). -/
structure StoreArgs where
  otp : String
  qty : Int
  unit : String
  grade : Option String
deriving DecidableEq, Repr

/-- `storePendingDelivery` (handleIntent.ts lines 19-38). Returns the
boolean result together with the updated `pendingByOtp` table. The guard
mirrors `!args?.otp || !args.qty || args.qty <= 0 || !FARMER_ID || !BUYER_ID`. -/
def storePendingDelivery (cfg : Config) (m : List (String × Pending))
    (args : StoreArgs) : Bool × List (String × Pending) :=
  let FARMER_ID := jsTrim cfg.farmerAccountId
  let BUYER_ID := jsTrim cfg.buyerAccountId
  if args.otp = "" ∨ args.qty = 0 ∨ args.qty ≤ 0 ∨ FARMER_ID = "" ∨ BUYER_ID = "" then
    (false, m)
  else
    (true, mapSet m args.otp
      { qty := args.qty
      , unit := if args.unit = "" then "kg" else args.unit
      , grade := args.grade
      , farmerId := FARMER_ID
      , buyerId := BUYER_ID })

/-- The task record built by `enqueueReleaseEscrow` (planner.ts lines
71-84): `status` and the initial delay follow the approval flag, attempts
start at 0 with `maxAttempts = 5`, backoff starts at 1500. -/
def mkReleaseTask (cfg : Config) (now : Nat) (id : Nat) (p : Payload) : Task :=
  { id := id
  , ttype := .releaseEscrow
  , payload := p
  , status := if cfg.requireOperatorApproval then .waiting_approval else .pending
  , attempts := 0
  , maxAttempts := 5
  , nextRunAt := now + (if cfg.requireOperatorApproval then 0 else cfg.autoReleaseDelayMs)
  , backoffMs := 1500
  , requiresApproval := cfg.requireOperatorApproval }

/-- `enqueueReleaseEscrow` (planner.ts lines 69-90). Builds the task,
pushes it, then appends `TaskEnqueued` to the ledger; that append is NOT
wrapped, so on failure the exception propagates (`Except.error`) with the
task already pushed. -/
def enqueueReleaseEscrow (cfg : Config) (now : Nat) (st : AppState) (fx : Effects)
    (p : Payload) : Except (AppState × Effects) (Nat × AppState × Effects) :=
  let task := mkReleaseTask cfg now st.nextId p
  let st1 : AppState := { st with queue := st.queue ++ [task], nextId := st.nextId + 1 }
  match logToHCS "TaskEnqueued" fx with
  | .ok fx1 => .ok (task.id, st1, fx1)
  | .error fx1 => .error (st1, fx1)

/-- The state component of an `enqueueReleaseEscrow` result (the task is
pushed whether or not the trailing ledger append throws). -/
def enqueueResState : Except (AppState × Effects) (Nat × AppState × Effects) → AppState
  | .ok (_, st, _) => st
  | .error (st, _) => st

/-- The `intent.data` open record; absent fields are `none`. -/
structure IntentData where
  quantity : Option Int := none
  unit : Option String := none
  otp : Option String := none
  grade : Option String := none
  raw : Option String := none
deriving DecidableEq, Repr

/-- Intent tags of `ParsedIntent` (nlp/router.ts). -/
inductive IntentType
  | DELIVERY_CONFIRMATION
  | BUYER_CONFIRM
  | HELP_REQUEST
  | NEW_LISTING
  | UNKNOWN
deriving DecidableEq, Repr

/-- `ParsedIntent`: tag plus data record. -/
structure ParsedIntent where
  itype : IntentType
  data : IntentData
deriving DecidableEq, Repr

/-- The `DELIVERY_CONFIRMATION` case of `handleIntent` (lines 54-76). -/
def handleDeliveryConfirmation (cfg : Config) (st : AppState) (fx : Effects)
    (sender : String) (data : IntentData) : AppState × Effects × Bool :=
  let qty : Int := data.quantity.getD 0
  let unit := jsTrim (data.unit.getD "kg")
  let otp := jsTrim (data.otp.getD "")
  let grade := jsTrim (data.grade.getD "N/A")
  if otp = "" ∨ qty = 0 then
    let fx := sendSms sender .missingOtpOrQty fx
    let fx := safeHcsLog "DeliveryRejected" fx
    (st, fx, true)
  else
    match storePendingDelivery cfg st.pendingByOtp
        { otp := otp, qty := qty, unit := unit, grade := some grade } with
    | (false, m) =>
      let fx := sendSms sender .couldNotRecord fx
      let fx := safeHcsLog "PendingDeliveryNotStored" fx
      ({ st with pendingByOtp := m }, fx, true)
    | (true, m) =>
      let fx := sendSms sender (.deliveryRecorded qty unit grade otp) fx
      let fx := safeHcsLog "DeliveryRecorded" fx
      ({ st with pendingByOtp := m }, fx, true)

/-- The `BUYER_CONFIRM` case of `handleIntent` (lines 78-119). Note the
order in the source: enqueue (which may throw after pushing the task),
then the safe `EscrowReleaseEnqueued` log, then the SMS, then the delete. -/
def handleBuyerConfirm (cfg : Config) (now : Nat) (st : AppState) (fx : Effects)
    (sender : String) (data : IntentData) : AppState × Effects × Bool :=
  let otp := jsTrim (data.otp.getD "")
  if otp = "" then
    let fx := sendSms sender .missingOtpConfirm fx
    let fx := safeHcsLog "BuyerConfirmRejected" fx
    (st, fx, true)
  else
    match mapGet st.pendingByOtp otp with
    | none =>
      let fx := sendSms sender (.noPendingDelivery otp) fx
      let fx := safeHcsLog "BuyerConfirmNoPending" fx
      (st, fx, true)
    | some pending =>
      let amount := pending.qty
      match enqueueReleaseEscrow cfg now st fx
          { otp := otp, amount := amount
          , farmerId := pending.farmerId, buyerId := pending.buyerId } with
      | .error (st1, fx1) => (st1, fx1, false)
      | .ok (taskId, st1, fx1) =>
        let fx1 := safeHcsLog "EscrowReleaseEnqueued" fx1
        let fx1 := sendSms sender
          (if cfg.requireOperatorApproval then .escrowQueuedApproval taskId
           else .escrowQueuedAuto taskId) fx1
        ({ st1 with pendingByOtp := mapDelete st1.pendingByOtp otp }, fx1, true)

/-- `handleIntent` (handleIntent.ts lines 50-146). The trailing boolean is
`true` when the handler returned normally and `false` when an exception
propagated out of it. -/
def handleIntent (cfg : Config) (now : Nat) (st : AppState) (fx : Effects)
    (sender : String) (intent : ParsedIntent) : AppState × Effects × Bool :=
  let fx := safeHcsLog "IncomingIntent" fx
  match intent.itype with
  | .DELIVERY_CONFIRMATION => handleDeliveryConfirmation cfg st fx sender intent.data
  | .BUYER_CONFIRM => handleBuyerConfirm cfg now st fx sender intent.data
  | .HELP_REQUEST =>
    let fx := sendSms sender .helpMenu fx
    let fx := safeHcsLog "HelpProvided" fx
    (st, fx, true)
  | .NEW_LISTING =>
    let fx := sendSms sender (.listingReceived intent.data.raw) fx
    let fx := safeHcsLog "ListingCreated" fx
    (st, fx, true)
  | .UNKNOWN =>
    let fx := sendSms sender .didNotUnderstand fx
    let fx := safeHcsLog "UnknownIntent" fx
    (st, fx, true)

/-- Eligibility test of the tick scan (planner.ts line 97):
status is pending or failed, and the task is due. -/
def eligible (now : Nat) (t : Task) : Prop :=
  (t.status = .pending ∨ t.status = .failed) ∧ t.nextRunAt ≤ now

instance decEligible (now : Nat) (t : Task) : Decidable (eligible now t) :=
  inferInstanceAs (Decidable ((t.status = .pending ∨ t.status = .failed) ∧
    t.nextRunAt ≤ now))

/-- The backoff update of the retry branch (planner.ts line 123):
`Math.min(task.backoffMs * 2, 60_000)`. -/
def backoffStep (b : Nat) : Nat := min (b * 2) 60000

/-- The catch branch of `tick` (planner.ts lines 115-128): increment
`attempts`; at or past `maxAttempts` mark failed and log `TaskFailed`
(terminal, `nextRunAt` untouched); otherwise mark failed, schedule the
retry at `now + backoffMs`, double the backoff with the 60s cap, and log
`TaskRetryScheduled`. Either trailing append is unwrapped: its failure
propagates out of `tick` (trailing boolean `false`), the task mutation
remaining in place. -/
def taskCatch (now : Nat) (t : Task) (fx : Effects) : Task × Effects × Bool :=
  let t1 := { t with attempts := t.attempts + 1 }
  if t1.attempts ≥ t1.maxAttempts then
    let t2 := { t1 with status := TaskStatus.failed }
    match logToHCS "TaskFailed" fx with
    | .ok fx1 => (t2, fx1, true)
    | .error fx1 => (t2, fx1, false)
  else
    let t2 := { t1 with status := TaskStatus.failed
                      , nextRunAt := now + t1.backoffMs
                      , backoffMs := backoffStep t1.backoffMs }
    match logToHCS "TaskRetryScheduled" fx with
    | .ok fx1 => (t2, fx1, true)
    | .error fx1 => (t2, fx1, false)

/-- The try block of `tick` on the selected task (planner.ts lines
100-128): set running, log `TaskRunning`, run the release action, log
`TaskDone`, then mark done; any throw inside the block lands in
`taskCatch`. Note that `task.status = 'done'` runs only after the
`TaskDone` append, so a throwing `TaskDone` append sends a task whose
action succeeded into the retry machinery, exactly as in the source. -/
def runTask (now : Nat) (t : Task) (fx : Effects) : Task × Effects × Bool :=
  let t1 := { t with status := TaskStatus.running }
  match logToHCS "TaskRunning" fx with
  | .error fx1 => taskCatch now t1 fx1
  | .ok fx1 =>
    match simulateEscrowRelease fx1 with
    | .error fx2 => taskCatch now t1 fx2
    | .ok fx2 =>
      match logToHCS "TaskDone" fx2 with
      | .error fx3 => taskCatch now t1 fx3
      | .ok fx3 => ({ t1 with status := TaskStatus.done }, fx3, true)

/-- `queue.find` plus the in-place mutation of the found task: the first
eligible task is replaced by its `runTask` result, every other task is
untouched; with no eligible task the queue is returned unchanged. -/
def tickQueue (now : Nat) (fx : Effects) : List Task → List Task × Effects × Bool
  | [] => ([], fx, true)
  | t :: ts =>
    if eligible now t then
      let r := runTask now t fx
      (r.1 :: ts, r.2.1, r.2.2)
    else
      let r := tickQueue now fx ts
      (t :: r.1, r.2.1, r.2.2)

/-- `tick` (planner.ts lines 94-129): process at most one due task. -/
def tick (now : Nat) (st : AppState) (fx : Effects) : AppState × Effects × Bool :=
  let r := tickQueue now fx st.queue
  ({ st with queue := r.1 }, r.2.1, r.2.2)

/-- Iterate `tick` over a list of observation times, discarding the
completion booleans (the scheduling loop keeps ticking regardless). -/
def tickRun (nows : List Nat) (st : AppState) (fx : Effects) : AppState × Effects :=
  match nows with
  | [] => (st, fx)
  | n :: rest =>
    let r := tick n st fx
    tickRun rest r.1 r.2.1

/-- Outcome of the `/api/approve` route (planner.ts lines 47-60):
404 not found, 400 wrong status, success, or a `TaskApproved` append
throw after the task was already mutated (no HTTP response sent). -/
inductive ApproveRes
  | notFound
  | badStatus (s : TaskStatus)
  | approved (id : Nat)
  | thrown (id : Nat)
deriving DecidableEq, Repr

/-- `queue.find(q => q.id === id)` plus the approval mutation: the first
task with the given id transitions waiting_approval to pending with
`nextRunAt = now`; any other status leaves the queue untouched. -/
def approveQueue (now : Nat) (id : Nat) : List Task → List Task × ApproveRes
  | [] => ([], .notFound)
  | t :: ts =>
    if t.id = id then
      if t.status = TaskStatus.waiting_approval then
        ({ t with status := TaskStatus.pending, nextRunAt := now } :: ts, .approved id)
      else
        (t :: ts, .badStatus t.status)
    else
      let r := approveQueue now id ts
      (t :: r.1, r.2)

/-- The `/api/approve` handler (planner.ts lines 47-60). On success the
`TaskApproved` append runs unwrapped after the mutation; its failure
leaves the mutation in place but aborts the route response. -/
def approve (now : Nat) (id : Nat) (st : AppState) (fx : Effects) :
    AppState × Effects × ApproveRes :=
  match approveQueue now id st.queue with
  | (q1, .approved i) =>
    match logToHCS "TaskApproved" fx with
    | .ok fx1 => ({ st with queue := q1 }, fx1, .approved i)
    | .error fx1 => ({ st with queue := q1 }, fx1, .thrown i)
  | (q1, r) => ({ st with queue := q1 }, fx, r)

/-- States reachable from process start through the documented operations:
intent handling, planner ticks, approvals, a direct `storePendingDelivery`
call (the agent tools path), and a direct enqueue. Oracles, times, senders
and intents are arbitrary at every step. -/
inductive Reachable (cfg : Config) : AppState → Prop
  | init : Reachable cfg initialState
  | handle {st : AppState} (now : Nat) (fx : Effects) (sender : String)
      (intent : ParsedIntent) :
      Reachable cfg st → Reachable cfg (handleIntent cfg now st fx sender intent).1
  | step_tick {st : AppState} (now : Nat) (fx : Effects) :
      Reachable cfg st → Reachable cfg (tick now st fx).1
  | step_approve {st : AppState} (now : Nat) (id : Nat) (fx : Effects) :
      Reachable cfg st → Reachable cfg (approve now id st fx).1
  | step_store {st : AppState} (args : StoreArgs) :
      Reachable cfg st →
      Reachable cfg { st with pendingByOtp := (storePendingDelivery cfg st.pendingByOtp args).2 }
  | step_enqueue {st : AppState} (now : Nat) (fx : Effects) (p : Payload) :
      Reachable cfg st →
      Reachable cfg (enqueueResState (enqueueReleaseEscrow cfg now st fx p))

/-! ## Helper lemmas about the Map model -/

/-- Keys of an association table are pairwise distinct (the JS Map invariant). -/
def keysNodup {α : Type} (m : List (String × α)) : Prop :=
  (m.map Prod.fst).Nodup

/-- Well-formedness of every stored pending delivery: non-empty code key,
positive quantity, non-empty producer and counterparty identifiers. -/
def pendingInv (m : List (String × Pending)) : Prop :=
  ∀ p ∈ m, p.1 ≠ "" ∧ 0 < p.2.qty ∧ p.2.farmerId ≠ "" ∧ p.2.buyerId ≠ ""

theorem mapGet_mapSet_self {α : Type} (m : List (String × α)) (k : String) (v : α) :
    mapGet (mapSet m k v) k = some v := by
  induction m with
  | nil => simp [mapSet, mapGet]
  | cons q rest ih =>
    obtain ⟨k0, v0⟩ := q
    by_cases h : k0 = k
    · simp [mapSet, mapGet, h]
    · simp [mapSet, mapGet, h, ih]

theorem mapGet_mapDelete_self {α : Type} (m : List (String × α)) (k : String) :
    mapGet (mapDelete m k) k = none := by
  induction m with
  | nil => simp [mapDelete, mapGet]
  | cons q rest ih =>
    obtain ⟨k0, v0⟩ := q
    by_cases h : k0 = k
    · simp [mapDelete, h, ih]
    · simp [mapDelete, mapGet, h, ih]

theorem mem_mapSet {α : Type} {m : List (String × α)} {k : String} {v : α}
    {p : String × α} (h : p ∈ mapSet m k v) : p = (k, v) ∨ p ∈ m := by
  induction m with
  | nil => simpa [mapSet] using h
  | cons q rest ih =>
    obtain ⟨k0, v0⟩ := q
    by_cases hk : k0 = k
    · simp [mapSet, hk] at h
      rcases h with h | h
      · exact Or.inl h
      · exact Or.inr (List.mem_cons_of_mem _ h)
    · simp [mapSet, hk] at h
      rcases h with h | h
      · exact Or.inr (by simp [h])
      · rcases ih h with h1 | h1
        · exact Or.inl h1
        · exact Or.inr (List.mem_cons_of_mem _ h1)

theorem mem_keys_mapSet {α : Type} {m : List (String × α)} {k a : String} {v : α}
    (h : a ∈ (mapSet m k v).map Prod.fst) : a = k ∨ a ∈ m.map Prod.fst := by
  simp only [List.mem_map] at h
  obtain ⟨p, hp, rfl⟩ := h
  rcases mem_mapSet hp with rfl | hp2
  · exact Or.inl rfl
  · exact Or.inr (List.mem_map_of_mem _ hp2)

theorem keysNodup_mapSet {α : Type} {m : List (String × α)} (k : String) (v : α)
    (h : keysNodup m) : keysNodup (mapSet m k v) := by
  induction m with
  | nil => simp [mapSet, keysNodup]
  | cons q rest ih =>
    obtain ⟨k0, v0⟩ := q
    rw [keysNodup, List.map_cons, List.nodup_cons] at h
    obtain ⟨hnot, hnd⟩ := h
    by_cases hk : k0 = k
    · subst hk
      rw [keysNodup]
      simp [mapSet, List.nodup_cons]
      exact ⟨by simpa using hnot, hnd⟩
    · have ihr := ih hnd
      rw [keysNodup]
      simp only [mapSet, hk, if_false, List.map_cons, List.nodup_cons]
      refine ⟨?_, ihr⟩
      intro hmem
      rcases mem_keys_mapSet hmem with rfl | hmem2
      · exact hk rfl
      · exact hnot hmem2

theorem mapDelete_sublist {α : Type} (m : List (String × α)) (k : String) :
    (mapDelete m k).Sublist m := by
  induction m with
  | nil => simp [mapDelete]
  | cons q rest ih =>
    obtain ⟨k0, v0⟩ := q
    by_cases hk : k0 = k
    · simpa [mapDelete, hk] using ih.cons (k0, v0)
    · simpa [mapDelete, hk] using ih.cons₂ (k0, v0)

theorem mapDelete_pendingInv {m : List (String × Pending)} {k : String}
    (h : pendingInv m) : pendingInv (mapDelete m k) :=
  fun p hp => h p ((mapDelete_sublist m k).subset hp)

theorem mapDelete_keysNodup {α : Type} {m : List (String × α)} {k : String}
    (h : keysNodup m) : keysNodup (mapDelete m k) :=
  List.Nodup.sublist ((mapDelete_sublist m k).map Prod.fst) h

theorem countP_key_eq_one {α : Type} {m : List (String × α)} {k : String} {v : α}
    (hnd : keysNodup m) (hget : mapGet m k = some v) :
    m.countP (fun p => p.1 == k) = 1 := by
  induction m with
  | nil => simp [mapGet] at hget
  | cons q rest ih =>
    obtain ⟨k0, v0⟩ := q
    rw [keysNodup, List.map_cons, List.nodup_cons] at hnd
    obtain ⟨hnot, hnd2⟩ := hnd
    by_cases hk : k0 = k
    · subst hk
      rw [List.countP_cons_of_pos _ _ (by simp)]
      have hzero : rest.countP (fun p => p.1 == k0) = 0 := by
        rw [List.countP_eq_zero]
        intro p hp hbeq
        have hp1 : p.1 ∈ rest.map Prod.fst := List.mem_map_of_mem _ hp
        have hpk : p.1 = k0 := by simpa using hbeq
        rw [hpk] at hp1
        exact absurd hp1 hnot
      omega
    · rw [List.countP_cons_of_neg _ _ (by simp [hk])]
      exact ih hnd2 (by simpa [mapGet, hk] using hget)

/-! ## Operation-level state lemmas -/

theorem tick_pendingByOtp (now : Nat) (st : AppState) (fx : Effects) :
    (tick now st fx).1.pendingByOtp = st.pendingByOtp := rfl

theorem approve_pendingByOtp (now id : Nat) (st : AppState) (fx : Effects) :
    (approve now id st fx).1.pendingByOtp = st.pendingByOtp := by
  unfold approve
  rcases h : approveQueue now id st.queue with ⟨q1, r⟩
  cases r <;> simp only [h]
  case approved i =>
    cases h2 : logToHCS "TaskApproved" fx <;> simp only [h2]

theorem enqueueResState_eq (cfg : Config) (now : Nat) (st : AppState) (fx : Effects)
    (p : Payload) :
    enqueueResState (enqueueReleaseEscrow cfg now st fx p) =
      { st with queue := st.queue ++ [mkReleaseTask cfg now st.nextId p]
              , nextId := st.nextId + 1 } := by
  unfold enqueueReleaseEscrow
  cases h : logToHCS "TaskEnqueued" fx <;> simp only [h, enqueueResState]

/-- Zeta-reduced form of `storePendingDelivery`. -/
theorem storePendingDelivery_eq (cfg : Config) (m : List (String × Pending))
    (args : StoreArgs) :
    storePendingDelivery cfg m args =
      if args.otp = "" ∨ args.qty = 0 ∨ args.qty ≤ 0 ∨
          jsTrim cfg.farmerAccountId = "" ∨ jsTrim cfg.buyerAccountId = "" then
        (false, m)
      else
        (true, mapSet m args.otp
          { qty := args.qty
          , unit := if args.unit = "" then "kg" else args.unit
          , grade := args.grade
          , farmerId := jsTrim cfg.farmerAccountId
          , buyerId := jsTrim cfg.buyerAccountId }) := rfl

theorem storePendingDelivery_pendingInv (cfg : Config) (m : List (String × Pending))
    (args : StoreArgs) (h : pendingInv m) :
    pendingInv (storePendingDelivery cfg m args).2 := by
  rw [storePendingDelivery_eq]
  by_cases hcond : args.otp = "" ∨ args.qty = 0 ∨ args.qty ≤ 0 ∨
      jsTrim cfg.farmerAccountId = "" ∨ jsTrim cfg.buyerAccountId = ""
  · rw [if_pos hcond]; exact h
  · rw [if_neg hcond]
    push_neg at hcond
    obtain ⟨h1, _, h3, h4, h5⟩ := hcond
    intro p hp
    rcases mem_mapSet hp with rfl | hpm
    · exact ⟨h1, h3, h4, h5⟩
    · exact h p hpm

theorem storePendingDelivery_keysNodup (cfg : Config) (m : List (String × Pending))
    (args : StoreArgs) (h : keysNodup m) :
    keysNodup (storePendingDelivery cfg m args).2 := by
  rw [storePendingDelivery_eq]
  by_cases hcond : args.otp = "" ∨ args.qty = 0 ∨ args.qty ≤ 0 ∨
      jsTrim cfg.farmerAccountId = "" ∨ jsTrim cfg.buyerAccountId = ""
  · rw [if_pos hcond]; exact h
  · rw [if_neg hcond]; exact keysNodup_mapSet _ _ h

/-- Every way `handleIntent` can touch the pending table: unchanged, one
`storePendingDelivery`, or one `mapDelete`. -/
theorem handleIntent_pending_cases (cfg : Config) (now : Nat) (st : AppState)
    (fx : Effects) (s : String) (i : ParsedIntent) :
    (handleIntent cfg now st fx s i).1.pendingByOtp = st.pendingByOtp ∨
    (∃ args, (handleIntent cfg now st fx s i).1.pendingByOtp =
      (storePendingDelivery cfg st.pendingByOtp args).2) ∨
    (∃ k, (handleIntent cfg now st fx s i).1.pendingByOtp =
      mapDelete st.pendingByOtp k) := by
  obtain ⟨ity, d⟩ := i
  cases ity
  case HELP_REQUEST => exact Or.inl rfl
  case NEW_LISTING => exact Or.inl rfl
  case UNKNOWN => exact Or.inl rfl
  case DELIVERY_CONFIRMATION =>
    by_cases hg : jsTrim (d.otp.getD "") = "" ∨ (d.quantity.getD 0 : Int) = 0
    · left
      simp only [handleIntent, handleDeliveryConfirmation, if_pos hg]
    · rcases hst : storePendingDelivery cfg st.pendingByOtp
        { otp := jsTrim (d.otp.getD ""), qty := d.quantity.getD 0
        , unit := jsTrim (d.unit.getD "kg")
        , grade := some (jsTrim (d.grade.getD "N/A")) } with ⟨b, m⟩
      refine Or.inr (Or.inl
        ⟨{ otp := jsTrim (d.otp.getD ""), qty := d.quantity.getD 0,
           unit := jsTrim (d.unit.getD "kg"),
           grade := some (jsTrim (d.grade.getD "N/A")) }, ?_⟩)
      cases b <;>
        simp only [handleIntent, handleDeliveryConfirmation, if_neg hg, hst]
  case BUYER_CONFIRM =>
    by_cases hg : jsTrim (d.otp.getD "") = ""
    · left
      simp only [handleIntent, handleBuyerConfirm, if_pos hg]
    · rcases hget : mapGet st.pendingByOtp (jsTrim (d.otp.getD "")) with _ | pending
      · left
        simp only [handleIntent, handleBuyerConfirm, if_neg hg, hget]
      · rcases henq : enqueueReleaseEscrow cfg now st (safeHcsLog "IncomingIntent" fx)
            { otp := jsTrim (d.otp.getD ""), amount := pending.qty
            , farmerId := pending.farmerId, buyerId := pending.buyerId } with st1fx1 | r
        · obtain ⟨st1, fx1⟩ := st1fx1
          have hres := enqueueResState_eq cfg now st (safeHcsLog "IncomingIntent" fx)
            { otp := jsTrim (d.otp.getD ""), amount := pending.qty
            , farmerId := pending.farmerId, buyerId := pending.buyerId }
          rw [henq] at hres
          have hst1 : st1.pendingByOtp = st.pendingByOtp := by
            rw [show st1 = enqueueResState (Except.error (st1, fx1)) from rfl, hres]
          left
          simp only [handleIntent, handleBuyerConfirm, if_neg hg, hget, henq]
          exact hst1
        · obtain ⟨tid, st1, fx1⟩ := r
          have hres := enqueueResState_eq cfg now st (safeHcsLog "IncomingIntent" fx)
            { otp := jsTrim (d.otp.getD ""), amount := pending.qty
            , farmerId := pending.farmerId, buyerId := pending.buyerId }
          rw [henq] at hres
          have hst1 : st1.pendingByOtp = st.pendingByOtp := by
            rw [show st1 = enqueueResState (Except.ok (tid, st1, fx1)) from rfl, hres]
          refine Or.inr (Or.inr ⟨jsTrim (d.otp.getD ""), ?_⟩)
          simp only [handleIntent, handleBuyerConfirm, if_neg hg, hget, henq]
          rw [hst1]

/-! ## Queue-scan lemmas -/

theorem tickQueue_none (now : Nat) (fx : Effects) (q : List Task)
    (h : ∀ t ∈ q, ¬ eligible now t) : tickQueue now fx q = (q, fx, true) := by
  induction q with
  | nil => rfl
  | cons t ts ih =>
    rw [tickQueue, if_neg (h t (List.mem_cons_self t ts))]
    rw [ih (fun u hu => h u (List.mem_cons_of_mem t hu))]

theorem tickQueue_first (now : Nat) (fx : Effects) (l1 : List Task) (t : Task)
    (l2 : List Task) (h1 : ∀ u ∈ l1, ¬ eligible now u) (h2 : eligible now t) :
    tickQueue now fx (l1 ++ t :: l2) =
      (l1 ++ (runTask now t fx).1 :: l2,
       (runTask now t fx).2.1, (runTask now t fx).2.2) := by
  induction l1 with
  | nil => simp only [List.nil_append, tickQueue, if_pos h2]
  | cons u us ih =>
    simp only [List.cons_append, tickQueue]
    rw [if_neg (h1 u (List.mem_cons_self u us))]
    simp only [List.append_eq]
    rw [ih (fun w hw => h1 w (List.mem_cons_of_mem u hw))]

theorem tickQueue_getElem_of_not_eligible (now : Nat) (fx : Effects) :
    ∀ (q : List Task) (i : Nat) (t : Task), q[i]? = some t → ¬ eligible now t →
      (tickQueue now fx q).1[i]? = some t := by
  intro q
  induction q with
  | nil => intro i t h _; simp at h
  | cons u us ih =>
    intro i t hget hnel
    by_cases he : eligible now u
    · rw [tickQueue, if_pos he]
      cases i with
      | zero =>
        have : u = t := by simpa using hget
        exact absurd (this ▸ he) hnel
      | succ j => simpa using hget
    · rw [tickQueue, if_neg he]
      cases i with
      | zero => simpa using hget
      | succ j =>
        have := ih j t (by simpa using hget) hnel
        simpa using this

theorem approveQueue_notFound (now id : Nat) (q : List Task)
    (h : ∀ t ∈ q, t.id ≠ id) : approveQueue now id q = (q, .notFound) := by
  induction q with
  | nil => rfl
  | cons t ts ih =>
    rw [approveQueue, if_neg (h t (List.mem_cons_self t ts))]
    rw [ih (fun u hu => h u (List.mem_cons_of_mem t hu))]

theorem approveQueue_found_bad (now id : Nat) (l1 : List Task) (t : Task)
    (l2 : List Task) (h1 : ∀ u ∈ l1, u.id ≠ id) (ht : t.id = id)
    (hs : t.status ≠ TaskStatus.waiting_approval) :
    approveQueue now id (l1 ++ t :: l2) = (l1 ++ t :: l2, .badStatus t.status) := by
  induction l1 with
  | nil => simp only [List.nil_append, approveQueue, if_pos ht, if_neg hs]
  | cons u us ih =>
    simp only [List.cons_append, approveQueue]
    rw [if_neg (h1 u (List.mem_cons_self u us))]
    simp only [List.append_eq]
    rw [ih (fun w hw => h1 w (List.mem_cons_of_mem u hw))]

theorem approveQueue_found_ok (now id : Nat) (l1 : List Task) (t : Task)
    (l2 : List Task) (h1 : ∀ u ∈ l1, u.id ≠ id) (ht : t.id = id)
    (hs : t.status = TaskStatus.waiting_approval) :
    approveQueue now id (l1 ++ t :: l2) =
      (l1 ++ { t with status := TaskStatus.pending, nextRunAt := now } :: l2,
       .approved id) := by
  induction l1 with
  | nil => simp only [List.nil_append, approveQueue, if_pos ht, if_pos hs]
  | cons u us ih =>
    simp only [List.cons_append, approveQueue]
    rw [if_neg (h1 u (List.mem_cons_self u us))]
    simp only [List.append_eq]
    rw [ih (fun w hw => h1 w (List.mem_cons_of_mem u hw))]

theorem approveQueue_getElem_done (now id : Nat) :
    ∀ (q : List Task) (i : Nat) (t : Task), q[i]? = some t →
      t.status = TaskStatus.done → (approveQueue now id q).1[i]? = some t := by
  intro q
  induction q with
  | nil => intro i t h _; simp at h
  | cons u us ih =>
    intro i t hget hdone
    by_cases hid : u.id = id
    · by_cases hw : u.status = TaskStatus.waiting_approval
      · rw [approveQueue, if_pos hid, if_pos hw]
        cases i with
        | zero =>
          have : u = t := by simpa using hget
          rw [← this] at hdone
          rw [hdone] at hw
          exact absurd hw (by simp)
        | succ j => simpa using hget
      · rw [approveQueue, if_pos hid, if_neg hw]
        cases i with
        | zero => simpa using hget
        | succ j => simpa using hget
    · rw [approveQueue, if_neg hid]
      cases i with
      | zero => simpa using hget
      | succ j =>
        have := ih j t (by simpa using hget) hdone
        simpa using this

/-! ## Effect-level lemmas and success-path characterizations -/

theorem logToHCS_nil (label : String) (fx : Effects) (h : fx.hcsOracle = []) :
    logToHCS label fx = .ok { fx with events := fx.events ++ [.hcs label] } := by
  unfold logToHCS
  rw [h]

theorem safeHcsLog_nil (label : String) (fx : Effects) (h : fx.hcsOracle = []) :
    safeHcsLog label fx = { fx with events := fx.events ++ [.hcs label] } := by
  unfold safeHcsLog
  rw [logToHCS_nil label fx h]

/-- The pending record stored for a valid delivery confirmation with
quantity `q`, unit field `u` and grade field `g` (after the defaulting
and trimming done by `handleIntent` and `storePendingDelivery`). -/
def storedRecord (cfg : Config) (q : Int) (u g : Option String) : Pending :=
  { qty := q
  , unit := if jsTrim (u.getD "kg") = "" then "kg" else jsTrim (u.getD "kg")
  , grade := some (jsTrim (g.getD "N/A"))
  , farmerId := jsTrim cfg.farmerAccountId
  , buyerId := jsTrim cfg.buyerAccountId }

/-- Successful `DELIVERY_CONFIRMATION` handling: valid code and quantity,
configured party identifiers, no ledger-append failure. -/
theorem handleDC_ok (cfg : Config) (now : Nat) (st : AppState) (fx : Effects)
    (s : String) (q : Int) (u g r : Option String) (C : String)
    (hfx : fx.hcsOracle = []) (hC : jsTrim C = C) (hne : C ≠ "") (hq : 0 < q)
    (hf : jsTrim cfg.farmerAccountId ≠ "") (hb : jsTrim cfg.buyerAccountId ≠ "") :
    handleIntent cfg now st fx s
      { itype := .DELIVERY_CONFIRMATION
      , data := { quantity := some q, unit := u, otp := some C, grade := g, raw := r } } =
      ({ st with pendingByOtp := mapSet st.pendingByOtp C (storedRecord cfg q u g) },
       { fx with events := fx.events ++
          [.hcs "IncomingIntent",
           .sms s (.deliveryRecorded q (jsTrim (u.getD "kg")) (jsTrim (g.getD "N/A")) C),
           .hcs "DeliveryRecorded"] },
       true) := by
  obtain ⟨ev, ho, eo⟩ := fx
  dsimp only at hfx
  subst hfx
  simp only [handleIntent, handleDeliveryConfirmation, safeHcsLog, logToHCS, sendSms,
    Option.getD_some, hC]
  rw [if_neg (by push_neg; exact ⟨hne, hq.ne'⟩)]
  rw [storePendingDelivery_eq]
  rw [if_neg (by push_neg; exact ⟨hne, hq.ne', hq, hf, hb⟩)]
  simp [storedRecord, List.append_assoc]

/-- Successful `BUYER_CONFIRM` handling: a pending delivery is found and
no ledger-append failure occurs, so the task is enqueued and the pending
entry deleted. -/
theorem handleBC_ok (cfg : Config) (now : Nat) (st : AppState) (fx : Effects)
    (s : String) (C : String) (pend : Pending) (r : Option String)
    (hfx : fx.hcsOracle = []) (hC : jsTrim C = C) (hne : C ≠ "")
    (hget : mapGet st.pendingByOtp C = some pend) :
    handleIntent cfg now st fx s
      { itype := .BUYER_CONFIRM, data := { otp := some C, raw := r } } =
      ({ pendingByOtp := mapDelete st.pendingByOtp C
       , queue := st.queue ++ [mkReleaseTask cfg now st.nextId
           { otp := C, amount := pend.qty
           , farmerId := pend.farmerId, buyerId := pend.buyerId }]
       , nextId := st.nextId + 1 },
       { fx with events := fx.events ++
          [.hcs "IncomingIntent", .hcs "TaskEnqueued", .hcs "EscrowReleaseEnqueued",
           .sms s (if cfg.requireOperatorApproval then .escrowQueuedApproval st.nextId
                   else .escrowQueuedAuto st.nextId)] },
       true) := by
  obtain ⟨ev, ho, eo⟩ := fx
  dsimp only at hfx
  subst hfx
  simp only [handleIntent, handleBuyerConfirm, safeHcsLog, logToHCS, sendSms,
    Option.getD_some, hC]
  rw [if_neg hne, hget]
  simp only [enqueueReleaseEscrow, logToHCS]
  simp [mkReleaseTask, List.append_assoc]

/-- All reachable states keep the Map key-uniqueness invariant. -/
theorem reachable_keysNodup (cfg : Config) (st : AppState) (h : Reachable cfg st) :
    keysNodup st.pendingByOtp := by
  induction h with
  | init => simp [initialState, keysNodup]
  | handle now fx sender intent hr ih =>
    rcases handleIntent_pending_cases cfg now _ fx sender intent with
      heq | ⟨args, heq⟩ | ⟨k, heq⟩ <;> rw [heq]
    · exact ih
    · exact storePendingDelivery_keysNodup _ _ _ ih
    · exact mapDelete_keysNodup ih
  | step_tick now fx hr ih => rw [tick_pendingByOtp]; exact ih
  | step_approve now id fx hr ih => rw [approve_pendingByOtp]; exact ih
  | step_store args hr ih => exact storePendingDelivery_keysNodup _ _ _ ih
  | step_enqueue now fx p hr ih => rw [enqueueResState_eq]; exact ih

/-! ## Concrete fixtures -/

/-- A demo configuration: both party accounts configured, approvals off. -/
def cfgDemo : Config :=
  { farmerAccountId := "0.0.1001", buyerAccountId := "0.0.1002"
  , requireOperatorApproval := false, autoReleaseDelayMs := 30000 }

/-- Empty trace, all collaborator calls succeed. -/
def fxNil : Effects := { events := [], hcsOracle := [], escrowOracle := [] }

/-- A demo delivery confirmation: 200kg, code 553904, grade A. -/
def dcDemo : ParsedIntent :=
  { itype := .DELIVERY_CONFIRMATION
  , data := { quantity := some 200, unit := some "kg"
            , otp := some "553904", grade := some "A" } }

/-- A demo buyer confirmation for code 553904. -/
def bcDemo : ParsedIntent :=
  { itype := .BUYER_CONFIRM, data := { otp := some "553904" } }

/-- A demo release payload. -/
def payloadDemo : Payload :=
  { otp := "553904", amount := 200, farmerId := "0.0.1001", buyerId := "0.0.1002" }

/-! ## Claims -/

/-- C9: at every reachable state, every entry of the Pending Delivery
Store has a non-empty code key, quantity strictly greater than 0, and
non-empty producer and counterparty identifiers; every operation (store,
confirm and reject paths, planner steps) preserves this. -/
theorem C9_pending_store_invariant (cfg : Config) (st : AppState)
    (h : Reachable cfg st) : pendingInv st.pendingByOtp := by
  induction h with
  | init => intro p hp; simp [initialState] at hp
  | handle now fx sender intent hr ih =>
    rcases handleIntent_pending_cases cfg now _ fx sender intent with
      heq | ⟨args, heq⟩ | ⟨k, heq⟩ <;> rw [heq]
    · exact ih
    · exact storePendingDelivery_pendingInv _ _ _ ih
    · exact mapDelete_pendingInv ih
  | step_tick now fx hr ih => rw [tick_pendingByOtp]; exact ih
  | step_approve now id fx hr ih => rw [approve_pendingByOtp]; exact ih
  | step_store args hr ih => exact storePendingDelivery_pendingInv _ _ _ ih
  | step_enqueue now fx p hr ih => rw [enqueueResState_eq]; exact ih

theorem C9_pending_store_invariant_witness :
    pendingInv (handleIntent cfgDemo 0 initialState fxNil "farmer" dcDemo).1.pendingByOtp :=
  C9_pending_store_invariant cfgDemo _
    (Reachable.handle 0 fxNil "farmer" dcDemo Reachable.init)

/-- C4: handling two valid DeliveryConfirmations with the same code C
leaves exactly one Pending Delivery entry for C, carrying the second
intent's quantity, unit and grade (overwrite, not accumulation); and at
every reachable state the store has at most one entry per code (pairwise
distinct keys). -/
theorem C4_overwrite_unique (cfg : Config) (st st1 st2 : AppState)
    (fx1 fx2 fx1b fx2b : Effects) (ok1 ok2 : Bool) (s1 s2 : String)
    (now1 now2 : Nat) (C : String) (q1 q2 : Int) (u1 u2 g1 g2 r1 r2 : Option String)
    (hnd : keysNodup st.pendingByOtp)
    (hfx1 : fx1.hcsOracle = []) (hfx2 : fx2.hcsOracle = [])
    (hC : jsTrim C = C) (hne : C ≠ "") (hq1 : 0 < q1) (hq2 : 0 < q2)
    (hf : jsTrim cfg.farmerAccountId ≠ "") (hb : jsTrim cfg.buyerAccountId ≠ "")
    (h1 : handleIntent cfg now1 st fx1 s1
      { itype := .DELIVERY_CONFIRMATION
      , data := { quantity := some q1, unit := u1, otp := some C
                , grade := g1, raw := r1 } } = (st1, fx1b, ok1))
    (h2 : handleIntent cfg now2 st1 fx2 s2
      { itype := .DELIVERY_CONFIRMATION
      , data := { quantity := some q2, unit := u2, otp := some C
                , grade := g2, raw := r2 } } = (st2, fx2b, ok2)) :
    st2.pendingByOtp.countP (fun p => p.1 == C) = 1 ∧
    mapGet st2.pendingByOtp C = some (storedRecord cfg q2 u2 g2) ∧
    (∀ stR : AppState, Reachable cfg stR → keysNodup stR.pendingByOtp) := by
  rw [handleDC_ok cfg now1 st fx1 s1 q1 u1 g1 r1 C hfx1 hC hne hq1 hf hb] at h1
  have hst1 :
      ({ st with
          pendingByOtp := mapSet st.pendingByOtp C (storedRecord cfg q1 u1 g1) }) = st1 :=
    congrArg (fun z => z.1) h1
  rw [← hst1] at h2
  rw [handleDC_ok cfg now2 _ fx2 s2 q2 u2 g2 r2 C hfx2 hC hne hq2 hf hb] at h2
  have hst2 :
      ({ st with
          pendingByOtp := mapSet (mapSet st.pendingByOtp C (storedRecord cfg q1 u1 g1)) C
            (storedRecord cfg q2 u2 g2) }) = st2 :=
    congrArg (fun z => z.1) h2
  rw [← hst2]
  have hnd2 : keysNodup (mapSet (mapSet st.pendingByOtp C (storedRecord cfg q1 u1 g1)) C
      (storedRecord cfg q2 u2 g2)) :=
    keysNodup_mapSet _ _ (keysNodup_mapSet _ _ hnd)
  refine ⟨?_, ?_, fun stR hR => reachable_keysNodup cfg stR hR⟩
  · exact countP_key_eq_one hnd2 (mapGet_mapSet_self _ _ _)
  · exact mapGet_mapSet_self _ _ _

/-- Second demo delivery confirmation for the C4 witness (same code,
different values). -/
def dcDemo2 : ParsedIntent :=
  { itype := .DELIVERY_CONFIRMATION
  , data := { quantity := some 300, unit := some "bags"
            , otp := some "553904", grade := some "B" } }

def c4st1 : AppState := (handleIntent cfgDemo 0 initialState fxNil "farmer" dcDemo).1

def c4st2 : AppState := (handleIntent cfgDemo 1 c4st1 fxNil "farmer" dcDemo2).1

theorem C4_overwrite_unique_witness :
    c4st2.pendingByOtp.countP (fun p => p.1 == "553904") = 1 ∧
    mapGet c4st2.pendingByOtp "553904" =
      some (storedRecord cfgDemo 300 (some "bags") (some "B")) ∧
    (∀ stR : AppState, Reachable cfgDemo stR → keysNodup stR.pendingByOtp) :=
  C4_overwrite_unique cfgDemo initialState c4st1 c4st2 fxNil fxNil
    (handleIntent cfgDemo 0 initialState fxNil "farmer" dcDemo).2.1
    (handleIntent cfgDemo 1 c4st1 fxNil "farmer" dcDemo2).2.1
    (handleIntent cfgDemo 0 initialState fxNil "farmer" dcDemo).2.2
    (handleIntent cfgDemo 1 c4st1 fxNil "farmer" dcDemo2).2.2
    "farmer" "farmer" 0 1 "553904" 200 300 (some "kg") (some "bags")
    (some "A") (some "B") none none
    (by simp [initialState, keysNodup]) rfl rfl (by decide) (by decide)
    (by decide) (by decide) (by decide) (by decide) rfl rfl

/-- Wrapped appends only ever extend the trace. -/
theorem safeHcsLog_events (label : String) (fx : Effects) :
    ∃ tl, (safeHcsLog label fx).events = fx.events ++ tl := by
  obtain ⟨ev, ho, eo⟩ := fx
  rcases ho with - | ⟨b, rest⟩
  · exact ⟨[.hcs label], rfl⟩
  · cases b
    · exact ⟨[.hcs label], rfl⟩
    · exact ⟨[.hcsThrow label, .localLog label], by
        simp [safeHcsLog, logToHCS, List.append_assoc]⟩

/-- C3: a BuyerConfirm whose (non-empty) code has no matching entry in
the Pending Delivery Store creates no Task, leaves the queue and the
store unchanged (the whole state `st` is returned as is), completes
normally, and notifies the sender that no pending delivery exists —
whatever the ledger-append oracle does (this path uses only wrapped
appends). -/
theorem C3_no_pending_no_task (cfg : Config) (now : Nat) (st : AppState)
    (fx : Effects) (s : String) (d : IntentData)
    (hne : jsTrim (d.otp.getD "") ≠ "")
    (hnone : mapGet st.pendingByOtp (jsTrim (d.otp.getD "")) = none) :
    handleIntent cfg now st fx s { itype := .BUYER_CONFIRM, data := d } =
      (st, safeHcsLog "BuyerConfirmNoPending"
        (sendSms s (.noPendingDelivery (jsTrim (d.otp.getD "")))
          (safeHcsLog "IncomingIntent" fx)), true) ∧
    Event.sms s (.noPendingDelivery (jsTrim (d.otp.getD ""))) ∈
      (handleIntent cfg now st fx s
        { itype := .BUYER_CONFIRM, data := d }).2.1.events := by
  have h1 : handleIntent cfg now st fx s { itype := .BUYER_CONFIRM, data := d } =
      (st, safeHcsLog "BuyerConfirmNoPending"
        (sendSms s (.noPendingDelivery (jsTrim (d.otp.getD "")))
          (safeHcsLog "IncomingIntent" fx)), true) := by
    simp only [handleIntent, handleBuyerConfirm]
    rw [if_neg hne, hnone]
  refine ⟨h1, ?_⟩
  rw [h1]
  obtain ⟨tl, htl⟩ := safeHcsLog_events "BuyerConfirmNoPending"
    (sendSms s (.noPendingDelivery (jsTrim (d.otp.getD "")))
      (safeHcsLog "IncomingIntent" fx))
  dsimp only
  rw [htl]
  simp [sendSms]

theorem C3_no_pending_no_task_witness :
    (handleIntent cfgDemo 0 initialState fxNil "buyer"
      { itype := .BUYER_CONFIRM, data := { otp := some "999999" } } =
      (initialState, safeHcsLog "BuyerConfirmNoPending"
        (sendSms "buyer"
          (.noPendingDelivery (jsTrim ((some "999999" : Option String).getD "")))
          (safeHcsLog "IncomingIntent" fxNil)), true)) ∧
    Event.sms "buyer"
        (.noPendingDelivery (jsTrim ((some "999999" : Option String).getD ""))) ∈
      (handleIntent cfgDemo 0 initialState fxNil "buyer"
        { itype := .BUYER_CONFIRM, data := { otp := some "999999" } }).2.1.events :=
  C3_no_pending_no_task cfgDemo 0 initialState fxNil "buyer"
    { otp := some "999999" } (by decide) (by decide)

/-- C1 (amended): a valid stored DeliveryConfirmation with code C and
quantity Q > 0, followed by a BuyerConfirm for the same C, enqueues
exactly one Task whose payload amount equals Q, and afterwards the store
has no entry for C — provided no ledger-append failure occurs during the
two handlings (the unwrapped `TaskEnqueued` append of
`enqueueReleaseEscrow` otherwise aborts the BuyerConfirm handling after
the push and before the delete; see the counterexample). -/
theorem C1_confirm_flow (cfg : Config) (st st1 st2 : AppState)
    (fx1 fx2 fx1b fx2b : Effects) (ok1 ok2 : Bool) (s1 s2 : String)
    (now1 now2 : Nat) (C : String) (q : Int) (u g r1 r2 : Option String)
    (hfx1 : fx1.hcsOracle = []) (hfx2 : fx2.hcsOracle = [])
    (hC : jsTrim C = C) (hne : C ≠ "") (hq : 0 < q)
    (hf : jsTrim cfg.farmerAccountId ≠ "") (hb : jsTrim cfg.buyerAccountId ≠ "")
    (h1 : handleIntent cfg now1 st fx1 s1
      { itype := .DELIVERY_CONFIRMATION
      , data := { quantity := some q, unit := u, otp := some C
                , grade := g, raw := r1 } } = (st1, fx1b, ok1))
    (h2 : handleIntent cfg now2 st1 fx2 s2
      { itype := .BUYER_CONFIRM, data := { otp := some C, raw := r2 } } =
      (st2, fx2b, ok2)) :
    ok1 = true ∧ ok2 = true ∧
    st2.queue = st.queue ++ [mkReleaseTask cfg now2 st.nextId
      { otp := C, amount := q
      , farmerId := jsTrim cfg.farmerAccountId
      , buyerId := jsTrim cfg.buyerAccountId }] ∧
    (mkReleaseTask cfg now2 st.nextId
      { otp := C, amount := q
      , farmerId := jsTrim cfg.farmerAccountId
      , buyerId := jsTrim cfg.buyerAccountId }).payload.amount = q ∧
    mapGet st2.pendingByOtp C = none := by
  rw [handleDC_ok cfg now1 st fx1 s1 q u g r1 C hfx1 hC hne hq hf hb] at h1
  injection h1 with hst1 h1r
  injection h1r with hfx1b hok1
  rw [← hst1] at h2
  rw [handleBC_ok cfg now2 _ fx2 s2 C (storedRecord cfg q u g) r2 hfx2 hC hne
    (mapGet_mapSet_self _ _ _)] at h2
  injection h2 with hst2 h2r
  injection h2r with hfx2b hok2
  subst hst2
  exact ⟨hok1.symm, hok2.symm, rfl, rfl, mapGet_mapDelete_self _ _⟩

def c1st1 : AppState := (handleIntent cfgDemo 0 initialState fxNil "farmer" dcDemo).1

def c1fx1 : Effects := (handleIntent cfgDemo 0 initialState fxNil "farmer" dcDemo).2.1

def c1st2 : AppState := (handleIntent cfgDemo 5 c1st1 c1fx1 "buyer" bcDemo).1

theorem C1_confirm_flow_witness :
    (handleIntent cfgDemo 0 initialState fxNil "farmer" dcDemo).2.2 = true ∧
    (handleIntent cfgDemo 5 c1st1 c1fx1 "buyer" bcDemo).2.2 = true ∧
    c1st2.queue = initialState.queue ++ [mkReleaseTask cfgDemo 5 initialState.nextId
      { otp := "553904", amount := 200
      , farmerId := jsTrim cfgDemo.farmerAccountId
      , buyerId := jsTrim cfgDemo.buyerAccountId }] ∧
    (mkReleaseTask cfgDemo 5 initialState.nextId
      { otp := "553904", amount := 200
      , farmerId := jsTrim cfgDemo.farmerAccountId
      , buyerId := jsTrim cfgDemo.buyerAccountId }).payload.amount = 200 ∧
    mapGet c1st2.pendingByOtp "553904" = none :=
  C1_confirm_flow cfgDemo initialState c1st1 c1st2 fxNil c1fx1
    c1fx1
    (handleIntent cfgDemo 5 c1st1 c1fx1 "buyer" bcDemo).2.1
    (handleIntent cfgDemo 0 initialState fxNil "farmer" dcDemo).2.2
    (handleIntent cfgDemo 5 c1st1 c1fx1 "buyer" bcDemo).2.2
    "farmer" "buyer" 0 5 "553904" 200 (some "kg") (some "A") none none
    rfl (by decide) (by decide) (by decide) (by decide) (by decide) (by decide)
    rfl rfl

/-- Oracle making the second handling fail its second ledger append (the
`IncomingIntent` append succeeds, the unwrapped `TaskEnqueued` throws). -/
def c1cexFx : Effects := { events := [], hcsOracle := [false, true], escrowOracle := [] }

def c1cexSt2 : AppState := (handleIntent cfgDemo 5 c1st1 c1cexFx "buyer" bcDemo).1

/-- C1 counterexample: after a stored DeliveryConfirmation (code 553904,
quantity 200) and a subsequently handled BuyerConfirm for the same code
during which the `TaskEnqueued` ledger append fails, exactly one task was
enqueued with amount 200, yet the Pending Delivery Store STILL contains
the entry for 553904 — refuting the claim that it no longer exists. -/
theorem C1_cex :
    c1cexSt2.queue.map (fun t => t.payload.amount) = [200] ∧
    mapGet c1cexSt2.pendingByOtp "553904" =
      some (storedRecord cfgDemo 200 (some "kg") (some "A")) := by decide

theorem approve_queue_eq (now id : Nat) (st : AppState) (fx : Effects) :
    (approve now id st fx).1.queue = (approveQueue now id st.queue).1 := by
  unfold approve
  rcases h : approveQueue now id st.queue with ⟨q1, r⟩
  cases r <;> simp only [h]
  case approved i =>
    cases h2 : logToHCS "TaskApproved" fx <;> simp only [h2]

/-- C6: `approve` fails on a missing id or on a task not in
waiting_approval, leaving the whole state (and the trace) unchanged; on a
waiting_approval task it succeeds, the task becoming pending with
`nextRunAt = now <= now`. The success case assumes the `TaskApproved`
append does not throw (it runs after the mutation; its failure would only
lose the HTTP response, not the mutation). -/
theorem C6_approve_contract (now id : Nat) (st : AppState) (fx : Effects) :
    ((∀ t ∈ st.queue, t.id ≠ id) → approve now id st fx = (st, fx, .notFound)) ∧
    (∀ l1 t l2, st.queue = l1 ++ t :: l2 → (∀ u ∈ l1, u.id ≠ id) → t.id = id →
      t.status ≠ TaskStatus.waiting_approval →
      approve now id st fx = (st, fx, .badStatus t.status)) ∧
    (∀ l1 t l2, st.queue = l1 ++ t :: l2 → (∀ u ∈ l1, u.id ≠ id) → t.id = id →
      t.status = TaskStatus.waiting_approval → fx.hcsOracle = [] →
      approve now id st fx =
        ({ st with queue :=
            l1 ++ { t with status := TaskStatus.pending, nextRunAt := now } :: l2 },
         { fx with events := fx.events ++ [.hcs "TaskApproved"] }, .approved id) ∧
      ({ t with status := TaskStatus.pending, nextRunAt := now } : Task).nextRunAt ≤ now) := by
  refine ⟨?_, ?_, ?_⟩
  · intro h
    unfold approve
    rw [approveQueue_notFound now id st.queue h]
  · intro l1 t l2 hq h1 ht hs
    have haq : approveQueue now id st.queue = (st.queue, .badStatus t.status) := by
      rw [hq]
      exact approveQueue_found_bad now id l1 t l2 h1 ht hs
    unfold approve
    rw [haq]
  · intro l1 t l2 hq h1 ht hs hfx
    have haq : approveQueue now id st.queue =
        (l1 ++ { t with status := TaskStatus.pending, nextRunAt := now } :: l2,
         .approved id) := by
      rw [hq]
      exact approveQueue_found_ok now id l1 t l2 h1 ht hs
    unfold approve
    rw [haq, logToHCS_nil _ _ hfx]
    exact ⟨rfl, Nat.le_refl now⟩

/-- A waiting_approval task used by the C6 witness. -/
def waitTask : Task :=
  { id := 7, ttype := .releaseEscrow, payload := payloadDemo
  , status := .waiting_approval, attempts := 0, maxAttempts := 5
  , nextRunAt := 0, backoffMs := 1500, requiresApproval := true }

/-- A done task used by the C6 and C10 witnesses. -/
def doneTask : Task :=
  { id := 8, ttype := .releaseEscrow, payload := payloadDemo
  , status := .done, attempts := 1, maxAttempts := 5
  , nextRunAt := 0, backoffMs := 1500, requiresApproval := false }

def c6stW : AppState := { pendingByOtp := [], queue := [waitTask], nextId := 9 }

def c6stD : AppState := { pendingByOtp := [], queue := [doneTask], nextId := 9 }

theorem C6_approve_contract_witness :
    (approve 5 99 c6stW fxNil = (c6stW, fxNil, .notFound)) ∧
    (approve 5 8 c6stD fxNil = (c6stD, fxNil, .badStatus doneTask.status)) ∧
    ((approve 5 7 c6stW fxNil =
        ({ c6stW with queue :=
            [] ++ { waitTask with status := TaskStatus.pending, nextRunAt := 5 } :: [] },
         { fxNil with events := fxNil.events ++ [.hcs "TaskApproved"] }, .approved 7) ∧
      ({ waitTask with status := TaskStatus.pending, nextRunAt := 5 } : Task).nextRunAt ≤ 5)) :=
  ⟨(C6_approve_contract 5 99 c6stW fxNil).1 (by decide),
   (C6_approve_contract 5 8 c6stD fxNil).2.1 [] doneTask [] rfl (by simp) rfl (by decide),
   (C6_approve_contract 5 7 c6stW fxNil).2.2 [] waitTask [] rfl (by simp) rfl rfl rfl⟩

/-- C7: `tick` runs at most one task. With no eligible task it is a
no-op returning the state and trace unchanged; otherwise it runs exactly
the first task (arrival order) whose status is pending or failed and
whose `nextRunAt <= now`, every other task untouched. -/
theorem C7_tick_at_most_one (now : Nat) (st : AppState) (fx : Effects) :
    ((∀ t ∈ st.queue, ¬ eligible now t) → tick now st fx = (st, fx, true)) ∧
    (∀ l1 t l2, st.queue = l1 ++ t :: l2 → (∀ u ∈ l1, ¬ eligible now u) →
      eligible now t →
      tick now st fx =
        ({ st with queue := l1 ++ (runTask now t fx).1 :: l2 },
         (runTask now t fx).2.1, (runTask now t fx).2.2)) := by
  constructor
  · intro h
    unfold tick
    rw [tickQueue_none now fx st.queue h]
  · intro l1 t l2 hq h1 h2
    have htq : tickQueue now fx st.queue =
        (l1 ++ (runTask now t fx).1 :: l2,
         (runTask now t fx).2.1, (runTask now t fx).2.2) := by
      rw [hq]
      exact tickQueue_first now fx l1 t l2 h1 h2
    unfold tick
    rw [htq]

/-- An eligible pending task used by the C7 witness. -/
def pendTask : Task :=
  { id := 2, ttype := .releaseEscrow, payload := payloadDemo
  , status := .pending, attempts := 0, maxAttempts := 5
  , nextRunAt := 0, backoffMs := 1500, requiresApproval := false }

def c7stP : AppState := { pendingByOtp := [], queue := [pendTask], nextId := 3 }

theorem C7_tick_at_most_one_witness :
    (tick 5 initialState fxNil = (initialState, fxNil, true)) ∧
    (tick 1000 c7stP fxNil =
      ({ c7stP with queue := [] ++ (runTask 1000 pendTask fxNil).1 :: [] },
       (runTask 1000 pendTask fxNil).2.1, (runTask 1000 pendTask fxNil).2.2)) :=
  ⟨(C7_tick_at_most_one 5 initialState fxNil).1 (by simp [initialState]),
   (C7_tick_at_most_one 1000 c7stP fxNil).2 [] pendTask [] rfl (by simp)
     (by decide)⟩

/-- C10: Done is terminal. A task whose status is done is never selected
by `tick` (it is not eligible), is rejected by `approve` without
mutation, and is untouched by an enqueue; in all three cases the task is
still at its position with all fields unchanged. -/
theorem C10_done_terminal (st : AppState) (i : Nat) (t : Task) (now idq : Nat)
    (fx : Effects) (cfg : Config) (p : Payload)
    (hget : st.queue[i]? = some t) (hdone : t.status = TaskStatus.done) :
    (tick now st fx).1.queue[i]? = some t ∧
    (approve now idq st fx).1.queue[i]? = some t ∧
    (enqueueResState (enqueueReleaseEscrow cfg now st fx p)).queue[i]? = some t := by
  have hnel : ¬ eligible now t := by
    intro hel
    obtain ⟨hs, -⟩ := hel
    rw [hdone] at hs
    rcases hs with h | h <;> simp at h
  refine ⟨?_, ?_, ?_⟩
  · exact tickQueue_getElem_of_not_eligible now fx st.queue i t hget hnel
  · rw [approve_queue_eq]
    exact approveQueue_getElem_done now idq st.queue i t hget hdone
  · rw [enqueueResState_eq]
    have hlt : i < st.queue.length := (List.getElem?_eq_some.mp hget).1
    show (st.queue ++ [mkReleaseTask cfg now st.nextId p])[i]? = some t
    rw [List.getElem?_append_left hlt]
    exact hget

theorem C10_done_terminal_witness :
    (tick 5 c6stD fxNil).1.queue[0]? = some doneTask ∧
    (approve 5 8 c6stD fxNil).1.queue[0]? = some doneTask ∧
    (enqueueResState (enqueueReleaseEscrow cfgDemo 5 c6stD fxNil payloadDemo)).queue[0]? =
      some doneTask :=
  C10_done_terminal c6stD 0 doneTask 5 8 fxNil cfgDemo payloadDemo rfl rfl

/-- The catch branch on a non-final failure: attempts incremented, status
failed, retry scheduled at `now` plus the OLD backoff, backoff doubled
with the 60s cap, `TaskRetryScheduled` appended. -/
theorem taskCatch_retry (now : Nat) (t : Task) (fx : Effects)
    (hfx : fx.hcsOracle = []) (hatt : t.attempts + 1 < t.maxAttempts) :
    taskCatch now t fx =
      ({ t with status := TaskStatus.failed, attempts := t.attempts + 1
              , nextRunAt := now + t.backoffMs, backoffMs := backoffStep t.backoffMs },
       { fx with events := fx.events ++ [.hcs "TaskRetryScheduled"] }, true) := by
  unfold taskCatch
  dsimp only
  rw [if_neg (show ¬ t.attempts + 1 ≥ t.maxAttempts by omega)]
  rw [logToHCS_nil _ _ hfx]

/-- C5 (amended): a failed action attempt with attempts still below
`maxAttempts` after the increment sets `nextRunAt = now + backoffMs`
(the old backoff) and `backoffMs = min (backoffMs * 2) 60000`
(`backoffStep`); iterating `backoffStep` from the initial 1500 yields
1500, 3000, 6000, 12000, 24000, 48000, 60000, 60000, … With the default
`maxAttempts = 5` only the first four doublings ever occur (see the
counterexample to the claim as stated). -/
theorem C5_backoff_law (now : Nat) (t : Task) (fx : Effects) (rest : List Bool)
    (hhcs : fx.hcsOracle = []) (hesc : fx.escrowOracle = true :: rest)
    (hatt : t.attempts + 1 < t.maxAttempts) :
    (runTask now t fx).1 =
      { t with status := TaskStatus.failed, attempts := t.attempts + 1
             , nextRunAt := now + t.backoffMs, backoffMs := backoffStep t.backoffMs } ∧
    (runTask now t fx).2.2 = true ∧
    (List.range 8).map (fun k => backoffStep^[k] 1500) =
      [1500, 3000, 6000, 12000, 24000, 48000, 60000, 60000] := by
  obtain ⟨ev, ho, eo⟩ := fx
  dsimp only at hhcs hesc
  subst hhcs
  subst hesc
  have key : runTask now t
      { events := ev, hcsOracle := [], escrowOracle := true :: rest } =
      taskCatch now { t with status := TaskStatus.running }
        { events := (ev ++ [Event.hcs "TaskRunning"]) ++ [Event.escrowThrow]
        , hcsOracle := [], escrowOracle := rest } := rfl
  rw [key, taskCatch_retry now { t with status := TaskStatus.running }
    { events := (ev ++ [Event.hcs "TaskRunning"]) ++ [Event.escrowThrow]
    , hcsOracle := [], escrowOracle := rest } rfl hatt]
  exact ⟨rfl, rfl, by decide⟩

/-- A fresh eligible task for the C5 witness. -/
def c5wTask : Task :=
  { id := 3, ttype := .releaseEscrow, payload := payloadDemo
  , status := .pending, attempts := 0, maxAttempts := 5
  , nextRunAt := 0, backoffMs := 1500, requiresApproval := false }

/-- Oracle with a single failing release action. -/
def c5wFx : Effects := { events := [], hcsOracle := [], escrowOracle := [true] }

theorem C5_backoff_law_witness :
    (runTask 7 c5wTask c5wFx).1 =
      { c5wTask with
          status := TaskStatus.failed,
          attempts := c5wTask.attempts + 1,
          nextRunAt := 7 + c5wTask.backoffMs,
          backoffMs := backoffStep c5wTask.backoffMs } ∧
    (runTask 7 c5wTask c5wFx).2.2 = true ∧
    (List.range 8).map (fun k => backoffStep^[k] 1500) =
      [1500, 3000, 6000, 12000, 24000, 48000, 60000, 60000] :=
  C5_backoff_law 7 c5wTask c5wFx [] rfl rfl (by decide)

/-- A fresh task whose action always fails, for the C5 counterexample. -/
def c5cexTask : Task :=
  { id := 4, ttype := .releaseEscrow, payload := payloadDemo
  , status := .pending, attempts := 0, maxAttempts := 5
  , nextRunAt := 0, backoffMs := 1500, requiresApproval := false }

def c5cexSt : AppState := { pendingByOtp := [], queue := [c5cexTask], nextId := 5 }

def c5cexFx : Effects :=
  { events := [], hcsOracle := []
  , escrowOracle := [true, true, true, true, true, true, true] }

/-- C5 counterexample: a default task (maxAttempts 5, backoff 1500) whose
action fails on seven consecutive due ticks ends with
`backoffMs = 24000`, not the 48000/60000 the claimed sequence gives for
the sixth and seventh failures: once `attempts >= maxAttempts` the
terminal branch stops doubling, so the stated sequence is never realized
past 24000. -/
theorem C5_cex :
    ((tickRun [0, 100000, 200000, 300000, 400000, 500000, 600000] c5cexSt
      c5cexFx).1.queue.map (fun u => (u.attempts, u.backoffMs)) = [(7, 24000)]) ∧
    ¬ ((tickRun [0, 100000, 200000, 300000, 400000, 500000, 600000] c5cexSt
      c5cexFx).1.queue.map (fun u => u.backoffMs) = [60000]) := by decide

/-- The failing task of the C2 evidence: four failures already recorded,
one more due. -/
def c2Task : Task :=
  { id := 0, ttype := .releaseEscrow, payload := payloadDemo
  , status := .failed, attempts := 4, maxAttempts := 5
  , nextRunAt := 0, backoffMs := 24000, requiresApproval := false }

def c2st : AppState := { pendingByOtp := [], queue := [c2Task], nextId := 1 }

def c2fx : Effects := { events := [], hcsOracle := [], escrowOracle := [true, false] }

/-- C2 (code-bug evidence): the fifth failed attempt reaches
`maxAttempts`: status failed, attempts = 5, `nextRunAt` untouched, and
the `TaskFailed` append is emitted (which the source logs with
`terminal: true`). Yet the very next `tick` selects the task again —
`failed` is also the retryable status and `nextRunAt` is stale — re-runs
its action, and on success even flips the supposedly terminal task to
done. This refutes the claim that no subsequent `tick()` ever selects
the task again. -/
theorem C2_terminal_reselected :
    ((tick 1000 c2st c2fx).1.queue.map
      (fun u => (u.status, u.attempts, u.nextRunAt)) = [(TaskStatus.failed, 5, 0)]) ∧
    ((tick 1000 c2st c2fx).2.1.events =
      [.hcs "TaskRunning", .escrowThrow, .hcs "TaskFailed"]) ∧
    ((tickRun [1000, 2000] c2st c2fx).1.queue.map
      (fun u => (u.status, u.attempts)) = [(TaskStatus.done, 5)]) := by decide

/-- Store state for the C8 evidence: one pending delivery awaiting
confirmation. -/
def c8Pend : Pending :=
  { qty := 200, unit := "kg", grade := some "A"
  , farmerId := "0.0.1001", buyerId := "0.0.1002" }

def c8st : AppState :=
  { pendingByOtp := [("553904", c8Pend)], queue := [], nextId := 0 }

/-- Oracle: the `IncomingIntent` append succeeds, the next append (the
unwrapped `TaskEnqueued` inside `enqueueReleaseEscrow`) throws. -/
def c8fx : Effects := { events := [], hcsOracle := [false, true], escrowOracle := [] }

/-- C8 (code-bug evidence): on the BuyerConfirm handling path the
`TaskEnqueued` ledger append runs outside any try/catch; when it fails,
the exception propagates out of `handleIntent` (trailing boolean
`false`): no SMS notification is ever sent to the sender (no `.sms`
event in the trace), the pending entry is not deleted — although the
task was already pushed. This refutes the claim that every log emission
on the handling path is wrapped so that a failure never aborts the
user-visible notification. -/
theorem C8_unwrapped_append_aborts :
    handleIntent cfgDemo 10 c8st c8fx "buyer" bcDemo =
      ({ pendingByOtp := [("553904", c8Pend)]
       , queue := [mkReleaseTask cfgDemo 10 0 payloadDemo]
       , nextId := 1 },
       { events := [.hcs "IncomingIntent", .hcsThrow "TaskEnqueued"]
       , hcsOracle := [], escrowOracle := [] },
       false) := by decide

end AgroTrack
